import Mathlib

/-!
# Verification of the zip-rs ZIP-archive reader (`src/read.rs`)

A shallow embedding of the reader in `src/read.rs` over a pure byte-source
model.  The underlying `Read + Seek` source is a `List Nat` of bytes together
with an explicit position; fallible operations return `Except ZipError`.
Machine integers are modelled as `Nat` (all on-disk fields are unsigned and the
code widens `u16`/`u32` fields into `u64` without wrapping arithmetic;
`checked_sub` is modelled explicitly).

Parts of the crate that the claims depend on but that are not under `src/`
(`spec.rs`, `compression.rs`, the text decoders) are modelled from the
specification; each such definition carries a doc comment starting with
`Modelled from the spec:`.
-/

set_option autoImplicit false

namespace ZipRs

/-- The error taxonomy of `ZipError` (result.rs): transport failures
(`Io`), structural errors (`InvalidArchive`), recognised-but-unimplemented
features (`UnsupportedArchive`) and index/name misses (`FileNotFound`).
The payload of `Io` is irrelevant to control flow and is dropped. -/
inductive ZipError where
  | Io : ZipError
  | InvalidArchive : String → ZipError
  | UnsupportedArchive : String → ZipError
  | FileNotFound : ZipError
deriving DecidableEq, Repr

/-- `u64::checked_sub`: `none` exactly when the subtraction would underflow. -/
def checked_sub (a b : Nat) : Option Nat :=
  if b ≤ a then some (a - b) else none

/-- Little-endian value of the `n` bytes of `d` starting at position `p`. -/
def leVal (d : List Nat) (p : Nat) : Nat → Nat
  | 0 => 0
  | n + 1 => d.getD p 0 + 256 * leVal d (p + 1) n

/-- A little-endian fixed-width read at position `p` (podio's
`read_u16/u32/u64` over an `io::Cursor`): succeeds with the value and the new
position when `n` bytes are available, otherwise fails with a transport
(`Io`) error, as `read_exact` does at end of stream. -/
def readLE (d : List Nat) (p n : Nat) : Except ZipError (Nat × Nat) :=
  if p + n ≤ d.length then .ok (leVal d p n, p + n) else .error .Io

/-- `ReadPodExt::read_exact`: reads `n` raw bytes at position `p`. -/
def readBytes (d : List Nat) (p n : Nat) : Except ZipError (List Nat × Nat) :=
  if p + n ≤ d.length then .ok ((d.drop p).take n, p + n) else .error .Io

/-- Local file header signature (spec.rs, given in the spec's wire format). -/
def LOCAL_FILE_HEADER_SIGNATURE : Nat := 0x04034b50

/-- Central directory record signature. -/
def CENTRAL_DIRECTORY_HEADER_SIGNATURE : Nat := 0x02014b50

/-- End-of-central-directory signature. -/
def CENTRAL_DIRECTORY_END_SIGNATURE : Nat := 0x06054b50

/-- ZIP64 end-of-central-directory signature. -/
def ZIP64_CENTRAL_DIRECTORY_END_SIGNATURE : Nat := 0x06064b50

/-- ZIP64 end-of-central-directory locator signature. -/
def ZIP64_CENTRAL_DIRECTORY_END_LOCATOR_SIGNATURE : Nat := 0x07064b50

/-- Modelled from the spec: `compression.rs` is not under `src/`.  The
dispatcher recognises Stored, Deflated and Bzip2 and treats every other
method tag as unsupported (spec section 4.6); both optional capabilities are
taken as compiled in. -/
inductive CompressionMethod where
  | Stored : CompressionMethod
  | Deflated : CompressionMethod
  | Bzip2 : CompressionMethod
  | Unsupported : Nat → CompressionMethod
deriving DecidableEq, Repr

/-- Modelled from the spec: `CompressionMethod::from_u16` maps the on-disk
method tag to the closed variant type (0 = Stored, 8 = Deflated,
12 = Bzip2, anything else unsupported). -/
def CompressionMethod.from_u16 (v : Nat) : CompressionMethod :=
  if v = 0 then .Stored
  else if v = 8 then .Deflated
  else if v = 12 then .Bzip2
  else .Unsupported v

/-- Per-entry metadata, `ZipFileData` (types.rs; the fields and their
initialisation are visible in `src/read.rs`).  `DateTime::from_msdos` and
`System::from_u8` live outside `src/`, so the last-modified timestamp and the
origin system are kept as the raw on-disk integers, a lossless packaging of
the same information. -/
structure ZipFileData where
  system : Nat
  version_made_by : Nat
  encrypted : Bool
  compression_method : CompressionMethod
  last_mod_time : Nat
  last_mod_date : Nat
  crc32 : Nat
  compressed_size : Nat
  uncompressed_size : Nat
  file_name : String
  file_name_raw : List Nat
  file_comment : String
  header_start : Nat
  data_start : Nat
  external_attributes : Nat
deriving DecidableEq, Repr

/-- Modelled from the spec: the UTF-8 (lossy) decoder and the cp437 legacy
decoder are collaborators outside `src/` (std and cp437.rs).  Both map ASCII
bytes to the identical characters, which is the only behaviour this
development relies on; other bytes go through `Char.ofNat` as an abstraction
of the two decoders' byte-to-code-point maps.  `read.rs` selects between the
two on the UTF-8 flag bit; the selection does not change anything observable
in this model. -/
def decodeText (raw : List Nat) : String :=
  String.mk (raw.map Char.ofNat)

/-- The tag `0x0001` (ZIP64 extended information) arm of `parse_extra_field`
(read.rs lines 388-403) is the fixed-order sequence of three conditional
widened reads below: an 8-byte value is consumed — and deducted from
`len_left` — for each classic field that reads exactly `0xFFFFFFFF`.
Mutation of the borrowed `ZipFileData` is modelled by carrying the (possibly
partially) updated record alongside the error.  First conditional widened
read: uncompressed size. -/
def zip64StepUncompressed (st : ZipFileData × Nat × Int × Option ZipError)
    (d : List Nat) : ZipFileData × Nat × Int × Option ZipError :=
  match st with
  | (f, p, ll, some e) => (f, p, ll, some e)
  | (f, p, ll, none) =>
    if f.uncompressed_size = 0xFFFFFFFF then
      match readLE d p 8 with
      | .ok (v, p') => ({ f with uncompressed_size := v }, p', ll - 8, none)
      | .error e => (f, p, ll, some e)
    else (f, p, ll, none)

/-- Second conditional widened read of the ZIP64 arm: compressed size. -/
def zip64StepCompressed (st : ZipFileData × Nat × Int × Option ZipError)
    (d : List Nat) : ZipFileData × Nat × Int × Option ZipError :=
  match st with
  | (f, p, ll, some e) => (f, p, ll, some e)
  | (f, p, ll, none) =>
    if f.compressed_size = 0xFFFFFFFF then
      match readLE d p 8 with
      | .ok (v, p') => ({ f with compressed_size := v }, p', ll - 8, none)
      | .error e => (f, p, ll, some e)
    else (f, p, ll, none)

/-- Third conditional widened read of the ZIP64 arm: header start. -/
def zip64StepHeaderStart (st : ZipFileData × Nat × Int × Option ZipError)
    (d : List Nat) : ZipFileData × Nat × Int × Option ZipError :=
  match st with
  | (f, p, ll, some e) => (f, p, ll, some e)
  | (f, p, ll, none) =>
    if f.header_start = 0xFFFFFFFF then
      match readLE d p 8 with
      | .ok (v, p') => ({ f with header_start := v }, p', ll - 8, none)
      | .error e => (f, p, ll, some e)
    else (f, p, ll, none)

/-- The complete tag-`0x0001` arm: the three conditional reads in their fixed
order, an error from an earlier read short-circuiting the later ones (the
`?` operator in the source); the trailing disk-start-number field is never
read. -/
def zip64ExtraFieldArm (file : ZipFileData) (d : List Nat) (p : Nat)
    (len_left : Int) : ZipFileData × Nat × Int × Option ZipError :=
  zip64StepHeaderStart (zip64StepCompressed
    (zip64StepUncompressed (file, p, len_left, none) d) d) d

/-- The record loop of `parse_extra_field` (read.rs lines 382-411): while the
cursor is strictly before the end of the buffer, read a 2-byte tag and a
2-byte declared length, run the ZIP64 arm when the tag is `0x0001`, then skip
forward by the unconsumed declared length — only when it is still positive; a
negative remainder is silently ignored and the cursor is never rewound.
The loop is driven by explicit fuel; each iteration advances the cursor by at
least 4 bytes, so the fuel `d.length + 1` supplied by `parse_extra_field` can
never run out. -/
def parseExtraLoop (d : List Nat) : ZipFileData → Nat → Nat → ZipFileData × Option ZipError
  | file, _, 0 => (file, none)
  | file, p, fuel + 1 =>
    if p < d.length then
      match readLE d p 2 with
      | .error e => (file, some e)
      | .ok (kind, p1) =>
        match readLE d p1 2 with
        | .error e => (file, some e)
        | .ok (len, p2) =>
          match (if kind = 0x0001 then zip64ExtraFieldArm file d p2 (len : Int)
                 else (file, p2, (len : Int), none)) with
          | (f, _, _, some e) => (f, some e)
          | (f, p3, len_left, none) =>
            let p4 := if 0 < len_left then p3 + len_left.toNat else p3
            parseExtraLoop d f p4 fuel
    else (file, none)

/-- `parse_extra_field` (read.rs lines 379-413): scan the extra-field buffer
from position 0.  The returned record carries all mutations performed before
a possible failure, as with the `&mut ZipFileData` argument in the source. -/
def parse_extra_field (file : ZipFileData) (data : List Nat) : ZipFileData × Option ZipError :=
  parseExtraLoop data file 0 (data.length + 1)

/-- The extra-field outcome match shared by `central_header_to_zip_file`
(read.rs lines 368-371) and `read_zipfile_from_stream` (lines 627-630):
`Ok(..) | Err(ZipError::Io(..))` fall through with the (possibly partially
widened) entry, any other error aborts the caller. -/
def handleExtraFieldOutcome (res : ZipFileData × Option ZipError) : Except ZipError ZipFileData :=
  match res with
  | (r, none) => .ok r
  | (r, some .Io) => .ok r
  | (_, some e) => .error e

/-- `parse_extra_field` as invoked by both callers, wrapped in the shared
outcome match. -/
def handleExtraField (file : ZipFileData) (data : List Nat) : Except ZipError ZipFileData :=
  handleExtraFieldOutcome (parse_extra_field file data)

/-- `central_header_to_zip_file` (read.rs lines 309-377): validate the
central-directory record signature, read the fixed field block, read the
name/extra/comment byte blocks per their declared lengths, decode the texts,
build the entry with `data_start = 0`, feed the extra field to
`parse_extra_field` tolerating only `Io` failures, and finally add
`archive_offset` to `header_start`.  The fixed fields after the signature are
read with a single bounds check: each individual podio read fails with the
same `Io` error and there is no intervening control flow, so the collapsed
check is observably identical. -/
def central_header_to_zip_file (d : List Nat) (p : Nat) (archive_offset : Nat) :
    Except ZipError (ZipFileData × Nat) :=
  match readLE d p 4 with
  | .error e => .error e
  | .ok (signature, p0) =>
    if signature ≠ CENTRAL_DIRECTORY_HEADER_SIGNATURE then
      .error (.InvalidArchive "Invalid Central Directory header")
    else if p0 + 42 ≤ d.length then
      let version_made_by := leVal d p0 2
      let flags := leVal d (p0 + 4) 2
      let encrypted : Bool := flags &&& 1 == 1
      let compression_method := leVal d (p0 + 6) 2
      let last_mod_time := leVal d (p0 + 8) 2
      let last_mod_date := leVal d (p0 + 10) 2
      let crc32 := leVal d (p0 + 12) 4
      let compressed_size := leVal d (p0 + 16) 4
      let uncompressed_size := leVal d (p0 + 20) 4
      let file_name_length := leVal d (p0 + 24) 2
      let extra_field_length := leVal d (p0 + 26) 2
      let file_comment_length := leVal d (p0 + 28) 2
      let external_file_attributes := leVal d (p0 + 34) 4
      let offset := leVal d (p0 + 38) 4
      match readBytes d (p0 + 42) file_name_length with
      | .error e => .error e
      | .ok (file_name_raw, p1) =>
        match readBytes d p1 extra_field_length with
        | .error e => .error e
        | .ok (extra_field, p2) =>
          match readBytes d p2 file_comment_length with
          | .error e => .error e
          | .ok (file_comment_raw, p3) =>
            let file_name := decodeText file_name_raw
            let file_comment := decodeText file_comment_raw
            let result : ZipFileData :=
              { system := version_made_by >>> 8
                version_made_by := version_made_by % 256
                encrypted := encrypted
                compression_method := CompressionMethod.from_u16 compression_method
                last_mod_time := last_mod_time
                last_mod_date := last_mod_date
                crc32 := crc32
                compressed_size := compressed_size
                uncompressed_size := uncompressed_size
                file_name := file_name
                file_name_raw := file_name_raw
                file_comment := file_comment
                header_start := offset
                data_start := 0
                external_attributes := external_file_attributes }
            match handleExtraField result extra_field with
            | .error e => .error e
            | .ok result2 =>
              .ok ({ result2 with header_start := result2.header_start + archive_offset }, p3)
    else .error .Io

/-- The classic end-of-central-directory record (`spec::CentralDirectoryEnd`);
the fields are those `read.rs` consumes from the parsed footer. -/
structure CentralDirectoryEnd where
  disk_number : Nat
  disk_with_central_directory : Nat
  number_of_files_on_this_disk : Nat
  number_of_files : Nat
  central_directory_size : Nat
  central_directory_offset : Nat
  zip_file_comment : List Nat
deriving DecidableEq, Repr

/-- The ZIP64 end-of-central-directory locator
(`spec::Zip64CentralDirectoryEndLocator`). -/
structure Zip64Locator where
  disk_with_central_directory : Nat
  end_of_central_directory_offset : Nat
  number_of_disks : Nat
deriving DecidableEq, Repr

/-- The ZIP64 end-of-central-directory record
(`spec::Zip64CentralDirectoryEnd`); the fields `read.rs` consumes. -/
structure Zip64CentralDirectoryEnd where
  disk_number : Nat
  disk_with_central_directory : Nat
  number_of_files_on_this_disk : Nat
  number_of_files : Nat
  central_directory_size : Nat
  central_directory_offset : Nat
deriving DecidableEq, Repr

/-- Modelled from the spec: `Zip64CentralDirectoryEndLocator::parse`
(spec.rs, not under `src/`).  Per the spec's wire format, the 4-byte
little-endian signature `0x07064b50` is checked first — a mismatch is a
structural (invalid-archive) error — and then the disk number, the recorded
absolute offset of the ZIP64 end-of-central-directory record and the total
disk count are read. -/
def zip64LocatorParse (d : List Nat) (p : Nat) : Except ZipError Zip64Locator :=
  match readLE d p 4 with
  | .error e => .error e
  | .ok (signature, p0) =>
    if signature ≠ ZIP64_CENTRAL_DIRECTORY_END_LOCATOR_SIGNATURE then
      .error (.InvalidArchive "Invalid zip64 locator digital signature header")
    else
      match readLE d p0 4 with
      | .error e => .error e
      | .ok (disk_with_central_directory, p1) =>
        match readLE d p1 8 with
        | .error e => .error e
        | .ok (end_of_central_directory_offset, p2) =>
          match readLE d p2 4 with
          | .error e => .error e
          | .ok (number_of_disks, _) =>
            .ok { disk_with_central_directory := disk_with_central_directory
                  end_of_central_directory_offset := end_of_central_directory_offset
                  number_of_disks := number_of_disks }

/-- The ZIP64-locator probe of `get_directory_counts` (read.rs lines
117-138): seek to 20 bytes in front of the 22-plus-comment-byte classic
footer, counted from the end of the source; a failing seek (the probe
position would be negative) or a signature mismatch (`InvalidArchive` from
the locator parse) yields `none` — a plain non-ZIP64 archive — while any
other parse failure is a real error. -/
def zip64LocatorProbe (reader : List Nat) (footer : CentralDirectoryEnd) :
    Except ZipError (Option Zip64Locator) :=
  if 20 + 22 + footer.zip_file_comment.length ≤ reader.length then
    match zip64LocatorParse reader (reader.length - (20 + 22 + footer.zip_file_comment.length)) with
    | .ok loc => .ok (some loc)
    | .error (.InvalidArchive _) => .ok none
    | .error e => .error e
  else .ok none

/-- The no-ZIP64-locator branch of `get_directory_counts` (read.rs lines
141-156): `archive_offset` is the doubly-checked subtraction
`cde_start_pos − central_directory_size − central_directory_offset`, an
underflow of either step being the structural error
`"Invalid central directory size or offset"`; then
`directory_start = central_directory_offset + archive_offset` and the entry
count is the classic 16-bit `number_of_files_on_this_disk` field. -/
def getDirectoryCountsClassic (footer : CentralDirectoryEnd) (cde_start_pos : Nat) :
    Except ZipError (Nat × Nat × Nat) :=
  match (checked_sub cde_start_pos footer.central_directory_size).bind
      (fun x => checked_sub x footer.central_directory_offset) with
  | none => .error (.InvalidArchive "Invalid central directory size or offset")
  | some archive_offset =>
    .ok (archive_offset, footer.central_directory_offset + archive_offset,
         footer.number_of_files_on_this_disk)

/-- Modelled from the spec: `Zip64CentralDirectoryEnd::find_and_parse`
(spec.rs, not under `src/`).  Per the spec, a forward-bounded search between
the locator's recorded (nominal) offset and the given upper bound locates the
ZIP64 end-of-central-directory signature; the archive offset falls out as the
distance between the found and the nominal position, and the record's fields
are read at the found position. -/
def zip64FindAndParse (d : List Nat) (nominal upper : Nat) :
    Except ZipError (Zip64CentralDirectoryEnd × Nat) :=
  match (List.range' nominal (upper + 1 - nominal)).find?
      (fun q => decide (q + 4 ≤ d.length ∧ leVal d q 4 = ZIP64_CENTRAL_DIRECTORY_END_SIGNATURE)) with
  | none => .error (.InvalidArchive "Could not find ZIP64 central directory end")
  | some q =>
    if q + 56 ≤ d.length then
      .ok ({ disk_number := leVal d (q + 16) 4
             disk_with_central_directory := leVal d (q + 20) 4
             number_of_files_on_this_disk := leVal d (q + 24) 8
             number_of_files := leVal d (q + 32) 8
             central_directory_size := leVal d (q + 40) 8
             central_directory_offset := leVal d (q + 48) 8 },
           q - nominal)
    else .error .Io

/-- The ZIP64 branch of `get_directory_counts` (read.rs lines 157-193):
re-validate the disk numbers, bound the forward search by
`cde_start_pos − 60` (underflow being the structural error
`"File cannot contain ZIP64 central directory end"`), search-and-parse the
ZIP64 record, re-check its two disk fields, and derive
`directory_start = central_directory_offset + archive_offset` with the
64-bit entry count. -/
def getDirectoryCountsZip64 (reader : List Nat) (footer : CentralDirectoryEnd)
    (cde_start_pos : Nat) (locator64 : Zip64Locator) :
    Except ZipError (Nat × Nat × Nat) :=
  if footer.disk_number ≠ locator64.disk_with_central_directory then
    .error (.UnsupportedArchive "Support for multi-disk files is not implemented")
  else
    match checked_sub cde_start_pos 60 with
    | none => .error (.InvalidArchive "File cannot contain ZIP64 central directory end")
    | some search_upper_bound =>
      match zip64FindAndParse reader locator64.end_of_central_directory_offset
          search_upper_bound with
      | .error e => .error e
      | .ok (footer64, archive_offset) =>
        if footer64.disk_number ≠ footer64.disk_with_central_directory then
          .error (.UnsupportedArchive "Support for multi-disk files is not implemented")
        else
          .ok (archive_offset, footer64.central_directory_offset + archive_offset,
               footer64.number_of_files)

/-- `ZipArchive::get_directory_counts` (read.rs lines 108-195): probe for the
ZIP64 locator, then take the classic or the ZIP64 branch. -/
def get_directory_counts (reader : List Nat) (footer : CentralDirectoryEnd)
    (cde_start_pos : Nat) : Except ZipError (Nat × Nat × Nat) :=
  match zip64LocatorProbe reader footer with
  | .error e => .error e
  | .ok none => getDirectoryCountsClassic footer cde_start_pos
  | .ok (some locator64) => getDirectoryCountsZip64 reader footer cde_start_pos locator64

/-- Modelled from the spec: `CentralDirectoryEnd::find_and_parse` (spec.rs,
not under `src/`).  Per the spec, the locator scans backward from the end of
the source for the end-of-central-directory signature, accounting for a
trailing comment of 0-65535 bytes, and fails structurally when no signature
is found within the maximal window; at the found position the fixed fields
and the comment are parsed. -/
def findAndParseEOCD (d : List Nat) : Except ZipError (CentralDirectoryEnd × Nat) :=
  match (List.range (min (d.length - 22 + 1) (65535 + 1))).find?
      (fun i => decide (leVal d (d.length - 22 - i) 4 = CENTRAL_DIRECTORY_END_SIGNATURE)) with
  | none => .error (.InvalidArchive "Could not find central directory end")
  | some i =>
    if 22 ≤ d.length then
      let p := d.length - 22 - i
      let comment_length := leVal d (p + 20) 2
      match readBytes d (p + 22) comment_length with
      | .error e => .error e
      | .ok (zip_file_comment, _) =>
        .ok ({ disk_number := leVal d (p + 4) 2
               disk_with_central_directory := leVal d (p + 6) 2
               number_of_files_on_this_disk := leVal d (p + 8) 2
               number_of_files := leVal d (p + 10) 2
               central_directory_size := leVal d (p + 12) 4
               central_directory_offset := leVal d (p + 16) 4
               zip_file_comment := zip_file_comment },
             p)
    else .error (.InvalidArchive "Could not find central directory end")

/-- One `names_map.insert` (a `HashMap::insert`, modelled as an association
list consulted front-to-back: prepending the new pair makes the most recent
insertion for a key shadow every older one, exactly the map's overwrite
semantics). -/
def mapInsert (m : List (String × Nat)) (k : String) (v : Nat) : List (String × Nat) :=
  (k, v) :: m

/-- `HashMap::get` over the association-list model. -/
def mapLookup : List (String × Nat) → String → Option Nat
  | [], _ => none
  | (k, v) :: m, name => if k = name then some v else mapLookup m name

/-- The `names_map` accumulation of `ZipArchive::new` (read.rs lines
217-221): for the entry at position `i` of the directory, insert
`(file_name, i)` — `i` is `files.len()` at the moment of the insertion. -/
def buildNamesMapGo (m : List (String × Nat)) (i : Nat) :
    List ZipFileData → List (String × Nat)
  | [] => m
  | f :: rest => buildNamesMapGo (mapInsert m f.file_name i) (i + 1) rest

/-- The complete name→index lookup of an archive, fold of `mapInsert` over
the directory-ordered entries. -/
def buildNamesMap (files : List ZipFileData) : List (String × Nat) :=
  buildNamesMapGo [] 0 files

/-- `ZipArchive` (read.rs lines 53-60): the byte source together with its
current position, the directory-ordered entries, the name lookup, the
resolved prepended-bytes offset and the raw footer comment. -/
structure ZipArchive where
  reader : List Nat
  pos : Nat
  files : List ZipFileData
  namesMap : List (String × Nat)
  offset : Nat
  comment : List Nat
deriving DecidableEq, Repr

/-- The entry loop of `ZipArchive::new` (read.rs lines 217-221): parse
`number_of_files` central-directory records in sequence, pushing each entry.
Returns the entries and the position after the last record. -/
def readCentralDirectoryEntries (reader : List Nat) (archive_offset : Nat) :
    Nat → Nat → List ZipFileData → Except ZipError (List ZipFileData × Nat)
  | pos, 0, files => .ok (files, pos)
  | pos, n + 1, files =>
    match central_header_to_zip_file reader pos archive_offset with
    | .error e => .error e
    | .ok (file, pos') => readCentralDirectoryEntries reader archive_offset pos' n (files ++ [file])

/-- `ZipArchive::new` (read.rs lines 198-230): find-and-parse the classic
footer, reject multi-disk archives, resolve the directory counts, parse the
directory and build the immutable archive.  The source interleaves the
`names_map.insert` calls with the entry pushes; since each insert uses
`files.len()` as the value, the resulting map is exactly
`buildNamesMap files`, which is used here directly.  The seek to
`directory_start` on a pure byte source cannot fail, so the seek-error arm of
the source (lines 211-215) is unreachable in this model. -/
def ZipArchive.new (reader : List Nat) : Except ZipError ZipArchive :=
  match findAndParseEOCD reader with
  | .error e => .error e
  | .ok (footer, cde_start_pos) =>
    if footer.disk_number ≠ footer.disk_with_central_directory then
      .error (.UnsupportedArchive "Support for multi-disk files is not implemented")
    else
      match get_directory_counts reader footer cde_start_pos with
      | .error e => .error e
      | .ok (archive_offset, directory_start, number_of_files) =>
        match readCentralDirectoryEntries reader archive_offset directory_start
            number_of_files [] with
        | .error e => .error e
        | .ok (files, endPos) =>
          .ok { reader := reader
                pos := endPos
                files := files
                namesMap := buildNamesMap files
                offset := archive_offset
                comment := footer.zip_file_comment }

/-- The decompression pipeline union `ZipFileReader` (read.rs lines 62-69):
each live variant wraps a CRC32 reader over an `io::Take` of the underlying
source; the take is modelled by its remaining byte budget, and the CRC32
reader by the declared checksum it will compare against.  `NoReader` is the
transient-empty variant used only during teardown. -/
inductive ZipFileReader where
  | NoReader : ZipFileReader
  | Stored : Nat → Nat → ZipFileReader
  | Deflated : Nat → Nat → ZipFileReader
  | Bzip2 : Nat → Nat → ZipFileReader
deriving DecidableEq, Repr

/-- The `Cow<'a, ZipFileData>` of a `ZipFile`: metadata either borrowed from
an archive (random access) or owned outright (streaming). -/
inductive CowZipFileData where
  | borrowed : ZipFileData → CowZipFileData
  | owned : ZipFileData → CowZipFileData
deriving DecidableEq, Repr

/-- `ZipFile` (read.rs lines 72-75): the per-entry handle. -/
structure ZipFile where
  data : CowZipFileData
  reader : ZipFileReader
deriving DecidableEq, Repr

/-- `make_reader` (read.rs lines 81-103): dispatch the declared compression
method to a pipeline over the `compressed_size`-bounded take, wrapping it in
the CRC32 shim; any unrecognised method is an unsupported-feature failure
(both optional capabilities are taken as compiled in). -/
def make_reader (compression_method : CompressionMethod) (crc32 : Nat) (limit : Nat) :
    Except ZipError ZipFileReader :=
  match compression_method with
  | .Stored => .ok (.Stored crc32 limit)
  | .Deflated => .ok (.Deflated crc32 limit)
  | .Bzip2 => .ok (.Bzip2 crc32 limit)
  | .Unsupported _ => .error (.UnsupportedArchive "Compression method not supported")

/-- `ZipArchive::by_index` (read.rs lines 268-299): bounds check, upfront
encryption rejection, seek to `header_start` and validate the local-header
signature, skip the 22 duplicate fixed bytes, read the local name and extra
lengths, compute and cache `data_start = header_start + (4+22+2+2) +
file_name_length + extra_field_length`, seek there and hand the
`compressed_size`-bounded take to `make_reader`.  The archive is returned
alongside the handle to model the mutation of `self`. -/
def by_index (ar : ZipArchive) (file_number : Nat) :
    Except ZipError (ZipArchive × ZipFile) :=
  if h : file_number ≥ ar.files.length then .error .FileNotFound
  else
    let data := ar.files.get ⟨file_number, by omega⟩
    if data.encrypted then .error (.UnsupportedArchive "Encrypted files are not supported")
    else
      match readLE ar.reader data.header_start 4 with
      | .error e => .error e
      | .ok (signature, _) =>
        if signature ≠ LOCAL_FILE_HEADER_SIGNATURE then
          .error (.InvalidArchive "Invalid local file header")
        else
          match readLE ar.reader (data.header_start + 4 + 22) 2 with
          | .error e => .error e
          | .ok (file_name_length, _) =>
            match readLE ar.reader (data.header_start + 4 + 22 + 2) 2 with
            | .error e => .error e
            | .ok (extra_field_length, _) =>
              let magic_and_header := 4 + 22 + 2 + 2
              let data2 := { data with data_start :=
                data.header_start + magic_and_header + file_name_length + extra_field_length }
              match make_reader data2.compression_method data2.crc32 data2.compressed_size with
              | .error e => .error e
              | .ok r =>
                .ok ({ ar with files := ar.files.set file_number data2,
                               pos := data2.data_start },
                     { data := .borrowed data2, reader := r })

/-- `ZipArchive::by_name` (read.rs lines 257-265): resolve the name through
`names_map` — a miss is `FileNotFound` — and delegate to `by_index`. -/
def by_name (ar : ZipArchive) (name : String) : Except ZipError (ZipArchive × ZipFile) :=
  match mapLookup ar.namesMap name with
  | some index => by_index ar index
  | none => .error .FileNotFound

/-- `read_zipfile_from_stream` (read.rs lines 572-647): read the 4-byte
signature at the current position — the central-directory signature means the
directory has been reached and yields a successful `none`, anything other
than the local-header signature is a structural error — then parse the
local-header layout, tolerate only `Io` failures of the extra-field parse,
reject encrypted and data-descriptor entries as unsupported, and build an
owned handle over the `compressed_size`-bounded remaining stream.  As in
`central_header_to_zip_file`, the consecutive fixed-field reads are collapsed
into one bounds check with the same `Io` failure. -/
def read_zipfile_from_stream (d : List Nat) (p : Nat) :
    Except ZipError (Option (ZipFile × Nat)) :=
  match readLE d p 4 with
  | .error e => .error e
  | .ok (signature, p0) =>
    if signature = LOCAL_FILE_HEADER_SIGNATURE then
      if p0 + 26 ≤ d.length then
        let version_made_by := leVal d p0 2
        let flags := leVal d (p0 + 2) 2
        let encrypted : Bool := flags &&& 1 == 1
        let using_data_descriptor : Bool := flags &&& (1 <<< 3) != 0
        let compression_method := CompressionMethod.from_u16 (leVal d (p0 + 4) 2)
        let last_mod_time := leVal d (p0 + 6) 2
        let last_mod_date := leVal d (p0 + 8) 2
        let crc32 := leVal d (p0 + 10) 4
        let compressed_size := leVal d (p0 + 14) 4
        let uncompressed_size := leVal d (p0 + 18) 4
        let file_name_length := leVal d (p0 + 22) 2
        let extra_field_length := leVal d (p0 + 24) 2
        match readBytes d (p0 + 26) file_name_length with
        | .error e => .error e
        | .ok (file_name_raw, p1) =>
          match readBytes d p1 extra_field_length with
          | .error e => .error e
          | .ok (extra_field, p2) =>
            let result : ZipFileData :=
              { system := version_made_by >>> 8
                version_made_by := version_made_by % 256
                encrypted := encrypted
                compression_method := compression_method
                last_mod_time := last_mod_time
                last_mod_date := last_mod_date
                crc32 := crc32
                compressed_size := compressed_size
                uncompressed_size := uncompressed_size
                file_name := decodeText file_name_raw
                file_name_raw := file_name_raw
                file_comment := ""
                header_start := 0
                data_start := 0
                external_attributes := 0 }
            match handleExtraField result extra_field with
            | .error e => .error e
            | .ok result2 =>
              if encrypted then
                .error (.UnsupportedArchive "Encrypted files are not supported")
              else if using_data_descriptor then
                .error (.UnsupportedArchive "The file length is not available in the local header")
              else
                match make_reader result2.compression_method result2.crc32
                    result2.compressed_size with
                | .error e => .error e
                | .ok r => .ok (some ({ data := .owned result2, reader := r }, p2))
      else .error .Io
    else if signature = CENTRAL_DIRECTORY_HEADER_SIGNATURE then .ok none
    else .error (.InvalidArchive "Invalid local file header")

/-- A forward-only source and its current position, for the streaming
lifecycle. -/
structure StreamState where
  src : List Nat
  pos : Nat
deriving DecidableEq, Repr

/-- The drain loop of `Drop for ZipFile` (read.rs lines 542-551): repeatedly
read into a `1 << 16`-byte buffer directly from the inner `io::Take` —
advancing the source by `min 65536 (min limit (remaining bytes))` — until a
read returns 0.  Driven by fuel; every productive iteration consumes at least
one byte of the take budget, so the fuel `limit + 1` supplied by the drop
model can never run out. -/
def drainLoop (src : List Nat) : Nat → Nat → Nat → Nat × Nat
  | pos, limit, 0 => (pos, limit)
  | pos, limit, fuel + 1 =>
    let k := min 65536 (min limit (src.length - pos))
    if k = 0 then (pos, limit) else drainLoop src (pos + k) (limit - k) fuel

/-- The `into_inner` chain of the drop implementation (read.rs lines
533-540): strip the CRC32 and decompression layers off every live variant,
exposing the raw length-bounded take; `NoReader` is the invalid state that
panics. -/
def innerTake (r : ZipFileReader) : Option Nat :=
  match r with
  | .NoReader => none
  | .Stored _ limit => some limit
  | .Deflated _ limit => some limit
  | .Bzip2 _ limit => some limit

/-- `Drop for ZipFile` (read.rs lines 524-554): an owned (streaming) handle
replaces its reader with `NoReader`, unwraps the raw take and drains it to
exhaustion; a borrowed (random-access) handle does nothing.  `none` models
the panic on the invalid `NoReader` state. -/
def zipFileDrop (zf : ZipFile) (s : StreamState) : Option StreamState :=
  match zf.data with
  | .owned _ =>
    match innerTake zf.reader with
    | none => none
    | some limit =>
      let r := drainLoop s.src s.pos limit (limit + 1)
      some { s with pos := r.1 }
  | .borrowed _ => some s

/-- The index of the last entry carrying `name` in a directory-ordered entry
list — the specification value for the duplicate-name lookup behaviour. -/
def lastIndexOf (name : String) : List ZipFileData → Option Nat
  | [] => none
  | f :: rest =>
    match lastIndexOf name rest with
    | some j => some (j + 1)
    | none => if f.file_name = name then some 0 else none

/-! ### Concrete fixtures used by the witness theorems -/

/-- A neutral entry record for building concrete test inputs. -/
def dummyEntry : ZipFileData :=
  { system := 0, version_made_by := 0, encrypted := false
    compression_method := .Stored, last_mod_time := 0, last_mod_date := 0
    crc32 := 0, compressed_size := 0, uncompressed_size := 0
    file_name := "", file_name_raw := [], file_comment := ""
    header_start := 0, data_start := 0, external_attributes := 0 }

/-- Footer with consistent arithmetic (`1 + 1 ≤ 5`) for the C1 witness. -/
def footerC1 : CentralDirectoryEnd :=
  { disk_number := 0, disk_with_central_directory := 0
    number_of_files_on_this_disk := 7, number_of_files := 7
    central_directory_size := 1, central_directory_offset := 1
    zip_file_comment := [] }

/-- Footer with underflowing arithmetic (`9 + 9 > 5`) for the C1 witness. -/
def footerC1bad : CentralDirectoryEnd :=
  { disk_number := 0, disk_with_central_directory := 0
    number_of_files_on_this_disk := 7, number_of_files := 7
    central_directory_size := 9, central_directory_offset := 9
    zip_file_comment := [] }

/-- A 42-byte all-zero source: the classic footer sits at position 20 and the
four bytes at the ZIP64 probe position 0 do not form the locator signature. -/
def readerC3 : List Nat := List.replicate 42 0

/-- Footer for the C3 witness (no comment, zero sizes). -/
def footerC3 : CentralDirectoryEnd :=
  { disk_number := 0, disk_with_central_directory := 0
    number_of_files_on_this_disk := 3, number_of_files := 3
    central_directory_size := 0, central_directory_offset := 0
    zip_file_comment := [] }

/-- A source holding one well-formed local file header at position 0 with a
1-byte name and no extra field, so `data_start = 0 + 30 + 1 + 0 = 31`. -/
def readerC2 : List Nat :=
  [0x50, 0x4b, 0x03, 0x04] ++ List.replicate 22 0 ++ [1, 0] ++ [0, 0] ++ [65]

/-- The entry matching `readerC2`'s local header. -/
def entryC2 : ZipFileData := { dummyEntry with file_name := "a" }

/-- Archive over `readerC2` with the single entry `entryC2`. -/
def arC2 : ZipArchive :=
  { reader := readerC2, pos := 0, files := [entryC2]
    namesMap := buildNamesMap [entryC2], offset := 0, comment := [] }

/-- The archive `arC2` after its entry's `data_start` has been resolved. -/
def arC2resolved : ZipArchive :=
  { arC2 with files := [{ entryC2 with data_start := 31 }], pos := 31 }

/-- The handle `by_index arC2 0` yields. -/
def zfC2 : ZipFile :=
  { data := .borrowed { entryC2 with data_start := 31 }, reader := .Stored 0 0 }

/-- An entry whose uncompressed size is saturated, requiring one widened
field from a ZIP64 extra record. -/
def fileSaturated : ZipFileData := { dummyEntry with uncompressed_size := 0xFFFFFFFF }

/-- 24 distinct bytes for the C4 witness. -/
def dC4 : List Nat := List.range 24

/-- A truncated ZIP64 extra record: tag 1, declared length 8, but only one
payload byte present — the widened read fails with an `Io` error. -/
def dC5trunc : List Nat := [1, 0, 8, 0, 9]

/-- A minimal well-formed central-directory record: signature plus 42 zero
bytes (all lengths zero). -/
def dC5cd : List Nat := [0x50, 0x4b, 0x01, 0x02] ++ List.replicate 42 0

/-- Four bytes forming the central-directory signature, the stream-end marker
for the streaming reader. -/
def dC6central : List Nat := [0x50, 0x4b, 0x01, 0x02]

/-- A 30-byte local header whose flags word is 8: the data-descriptor bit is
set and the encryption bit is clear. -/
def dC6descriptor : List Nat :=
  [0x50, 0x4b, 0x03, 0x04, 0, 0, 8, 0] ++ List.replicate 22 0

/-- A 30-byte local header whose flags word is 1: the encryption bit is set. -/
def dC7encrypted : List Nat :=
  [0x50, 0x4b, 0x03, 0x04, 0, 0, 1, 0] ++ List.replicate 22 0

/-- An entry flagged as encrypted. -/
def entryC7 : ZipFileData := { dummyEntry with encrypted := true }

/-- Archive holding one encrypted entry. -/
def arC7 : ZipArchive :=
  { reader := [], pos := 0, files := [entryC7]
    namesMap := buildNamesMap [entryC7], offset := 0, comment := [] }

/-- Entry metadata with a 4-byte compressed payload, for the drop witness. -/
def mdC8 : ZipFileData := { dummyEntry with compressed_size := 4 }

/-- A 10-byte forward-only source positioned at byte 3, where `mdC8`'s
compressed data starts. -/
def sC8 : StreamState := { src := List.replicate 10 0, pos := 3 }

/-- First of two same-named entries. -/
def entryC9a : ZipFileData := { dummyEntry with file_name := "dup", crc32 := 1 }

/-- Second of two same-named entries. -/
def entryC9b : ZipFileData := { dummyEntry with file_name := "dup", crc32 := 2 }

/-- Archive with a duplicated entry name. -/
def arC9 : ZipArchive :=
  { reader := [], pos := 0, files := [entryC9a, entryC9b]
    namesMap := buildNamesMap [entryC9a, entryC9b], offset := 0, comment := [] }

/-- A ZIP64 extra record with declared length 0 in front of 24 further bytes:
the saturated entry forces an 8-byte read past the record's declared end. -/
def dC10 : List Nat := [1, 0, 0, 0] ++ List.range' 1 24

/-! ### Basic facts about the byte-level readers -/

theorem readLE_eq_ok {d : List Nat} {p n : Nat} (h : p + n ≤ d.length) :
    readLE d p n = .ok (leVal d p n, p + n) := by
  simp [readLE, h]

theorem readBytes_eq_ok {d : List Nat} {p n : Nat} (h : p + n ≤ d.length) :
    readBytes d p n = .ok ((d.drop p).take n, p + n) := by
  simp [readBytes, h]

theorem readLE_error {d : List Nat} {p n : Nat} {e : ZipError}
    (h : readLE d p n = .error e) : e = .Io := by
  by_cases hb : p + n ≤ d.length
  · simp [readLE, hb] at h
  · simp [readLE, hb] at h
    exact h.symm

theorem readBytes_error {d : List Nat} {p n : Nat} {e : ZipError}
    (h : readBytes d p n = .error e) : e = .Io := by
  by_cases hb : p + n ≤ d.length
  · simp [readBytes, hb] at h
  · simp [readBytes, hb] at h
    exact h.symm

/-- C1.  When no ZIP64 locator is present, `get_directory_counts` computes
`archive_offset = cde_start_pos − central_directory_size −
central_directory_offset`; if either subtraction underflows it fails with the
structural error `"Invalid central directory size or offset"`; otherwise
`directory_start = central_directory_offset + archive_offset` and the entry
count is the classic 16-bit `number_of_files_on_this_disk` field. -/
theorem claim_C1_classic_branch (reader : List Nat) (footer : CentralDirectoryEnd)
    (cde_start_pos : Nat)
    (hprobe : zip64LocatorProbe reader footer = .ok none) :
    (footer.central_directory_size + footer.central_directory_offset ≤ cde_start_pos →
      get_directory_counts reader footer cde_start_pos =
        .ok (cde_start_pos - footer.central_directory_size - footer.central_directory_offset,
             footer.central_directory_offset +
               (cde_start_pos - footer.central_directory_size -
                footer.central_directory_offset),
             footer.number_of_files_on_this_disk))
    ∧ (cde_start_pos < footer.central_directory_size + footer.central_directory_offset →
      get_directory_counts reader footer cde_start_pos =
        .error (.InvalidArchive "Invalid central directory size or offset")) := by
  have hg : get_directory_counts reader footer cde_start_pos =
      getDirectoryCountsClassic footer cde_start_pos := by
    unfold get_directory_counts
    rw [hprobe]
  constructor
  · intro h
    have h1 : footer.central_directory_size ≤ cde_start_pos := by omega
    have h2 : footer.central_directory_offset ≤
        cde_start_pos - footer.central_directory_size := by omega
    rw [hg]
    unfold getDirectoryCountsClassic
    simp [checked_sub, h1, h2]
  · intro h
    rw [hg]
    unfold getDirectoryCountsClassic
    by_cases h1 : footer.central_directory_size ≤ cde_start_pos
    · have h2 : ¬ footer.central_directory_offset ≤
          cde_start_pos - footer.central_directory_size := by omega
      simp [checked_sub, h1, h2]
    · simp [checked_sub, h1]

/-- Witness for C1 at concrete inputs: a footer whose arithmetic is
consistent opens with `archive_offset = 5 − 1 − 1 = 3`, and one whose
arithmetic underflows fails structurally. -/
theorem claim_C1_witness :
    get_directory_counts [] footerC1 5 = .ok (3, 4, 7) ∧
    get_directory_counts [] footerC1bad 5 =
      .error (.InvalidArchive "Invalid central directory size or offset") := by
  constructor
  · have h := (claim_C1_classic_branch [] footerC1 5 (by rfl)).1 (by decide)
    simpa [footerC1] using h
  · exact (claim_C1_classic_branch [] footerC1bad 5 (by rfl)).2 (by decide)

/-- C3.  The ZIP64 locator is probed at the fixed 20-byte offset immediately
before the classic end-of-central-directory record's start (under the
standard layout, where the classic record plus its comment reach the end of
the source); when the bytes there do not carry the locator signature, `open`
proceeds through the plain non-ZIP64 branch instead of failing. -/
theorem claim_C3_zip64_locator_probe (reader : List Nat) (footer : CentralDirectoryEnd)
    (cde_start_pos : Nat)
    (hlayout : reader.length = cde_start_pos + 22 + footer.zip_file_comment.length)
    (h20 : 20 ≤ cde_start_pos)
    (hsig : leVal reader (cde_start_pos - 20) 4 ≠ ZIP64_CENTRAL_DIRECTORY_END_LOCATOR_SIGNATURE) :
    reader.length - (20 + 22 + footer.zip_file_comment.length) = cde_start_pos - 20
    ∧ zip64LocatorProbe reader footer = .ok none
    ∧ get_directory_counts reader footer cde_start_pos =
        getDirectoryCountsClassic footer cde_start_pos := by
  have hpos : reader.length - (20 + 22 + footer.zip_file_comment.length) =
      cde_start_pos - 20 := by omega
  have hparse : zip64LocatorParse reader (cde_start_pos - 20) =
      .error (.InvalidArchive "Invalid zip64 locator digital signature header") := by
    unfold zip64LocatorParse
    rw [readLE_eq_ok (by omega)]
    simp [hsig]
  have hprobe : zip64LocatorProbe reader footer = .ok none := by
    unfold zip64LocatorProbe
    rw [if_pos (by omega), hpos, hparse]
  refine ⟨hpos, hprobe, ?_⟩
  unfold get_directory_counts
  rw [hprobe]

/-- Witness for C3 at a concrete input: a 42-byte all-zero source whose probe
position is 0 carries no locator signature there, and the directory counts
are resolved through the classic branch. -/
theorem claim_C3_witness :
    readerC3.length - (20 + 22 + footerC3.zip_file_comment.length) = 20 - 20
    ∧ zip64LocatorProbe readerC3 footerC3 = .ok none
    ∧ get_directory_counts readerC3 footerC3 20 =
        getDirectoryCountsClassic footerC3 20 :=
  claim_C3_zip64_locator_probe readerC3 footerC3 20 (by decide) (by decide) (by decide)

/-! ### Facts about the extra-field parser -/

theorem zip64StepUncompressed_error {st : ZipFileData × Nat × Int × Option ZipError}
    {d : List Nat} {e : ZipError}
    (h : (zip64StepUncompressed st d).2.2.2 = some e) :
    st.2.2.2 = some e ∨ e = .Io := by
  obtain ⟨f, p, ll, err⟩ := st
  cases err with
  | some e0 => simp [zip64StepUncompressed] at h; simp [h]
  | none =>
    by_cases hsat : f.uncompressed_size = 0xFFFFFFFF
    · rcases hre : readLE d p 8 with e' | ⟨v, p'⟩
      · simp [zip64StepUncompressed, hsat, hre] at h
        exact Or.inr (h ▸ readLE_error hre)
      · simp [zip64StepUncompressed, hsat, hre] at h
    · simp [zip64StepUncompressed, hsat] at h

theorem zip64StepCompressed_error {st : ZipFileData × Nat × Int × Option ZipError}
    {d : List Nat} {e : ZipError}
    (h : (zip64StepCompressed st d).2.2.2 = some e) :
    st.2.2.2 = some e ∨ e = .Io := by
  obtain ⟨f, p, ll, err⟩ := st
  cases err with
  | some e0 => simp [zip64StepCompressed] at h; simp [h]
  | none =>
    by_cases hsat : f.compressed_size = 0xFFFFFFFF
    · rcases hre : readLE d p 8 with e' | ⟨v, p'⟩
      · simp [zip64StepCompressed, hsat, hre] at h
        exact Or.inr (h ▸ readLE_error hre)
      · simp [zip64StepCompressed, hsat, hre] at h
    · simp [zip64StepCompressed, hsat] at h

theorem zip64StepHeaderStart_error {st : ZipFileData × Nat × Int × Option ZipError}
    {d : List Nat} {e : ZipError}
    (h : (zip64StepHeaderStart st d).2.2.2 = some e) :
    st.2.2.2 = some e ∨ e = .Io := by
  obtain ⟨f, p, ll, err⟩ := st
  cases err with
  | some e0 => simp [zip64StepHeaderStart] at h; simp [h]
  | none =>
    by_cases hsat : f.header_start = 0xFFFFFFFF
    · rcases hre : readLE d p 8 with e' | ⟨v, p'⟩
      · simp [zip64StepHeaderStart, hsat, hre] at h
        exact Or.inr (h ▸ readLE_error hre)
      · simp [zip64StepHeaderStart, hsat, hre] at h
    · simp [zip64StepHeaderStart, hsat] at h

theorem zip64ExtraFieldArm_error {f : ZipFileData} {d : List Nat} {p : Nat}
    {ll : Int} {e : ZipError}
    (h : (zip64ExtraFieldArm f d p ll).2.2.2 = some e) : e = .Io := by
  unfold zip64ExtraFieldArm at h
  rcases zip64StepHeaderStart_error h with h2 | h2
  · rcases zip64StepCompressed_error h2 with h3 | h3
    · rcases zip64StepUncompressed_error h3 with h4 | h4
      · simp at h4
      · exact h4
    · exact h3
  · exact h2

theorem zip64StepUncompressed_data_start (st : ZipFileData × Nat × Int × Option ZipError)
    (d : List Nat) :
    (zip64StepUncompressed st d).1.data_start = st.1.data_start := by
  obtain ⟨f, p, ll, err⟩ := st
  cases err with
  | some e0 => simp [zip64StepUncompressed]
  | none =>
    by_cases hsat : f.uncompressed_size = 0xFFFFFFFF
    · rcases hre : readLE d p 8 with e' | ⟨v, p'⟩ <;>
        simp [zip64StepUncompressed, hsat, hre]
    · simp [zip64StepUncompressed, hsat]

theorem zip64StepCompressed_data_start (st : ZipFileData × Nat × Int × Option ZipError)
    (d : List Nat) :
    (zip64StepCompressed st d).1.data_start = st.1.data_start := by
  obtain ⟨f, p, ll, err⟩ := st
  cases err with
  | some e0 => simp [zip64StepCompressed]
  | none =>
    by_cases hsat : f.compressed_size = 0xFFFFFFFF
    · rcases hre : readLE d p 8 with e' | ⟨v, p'⟩ <;>
        simp [zip64StepCompressed, hsat, hre]
    · simp [zip64StepCompressed, hsat]

theorem zip64StepHeaderStart_data_start (st : ZipFileData × Nat × Int × Option ZipError)
    (d : List Nat) :
    (zip64StepHeaderStart st d).1.data_start = st.1.data_start := by
  obtain ⟨f, p, ll, err⟩ := st
  cases err with
  | some e0 => simp [zip64StepHeaderStart]
  | none =>
    by_cases hsat : f.header_start = 0xFFFFFFFF
    · rcases hre : readLE d p 8 with e' | ⟨v, p'⟩ <;>
        simp [zip64StepHeaderStart, hsat, hre]
    · simp [zip64StepHeaderStart, hsat]

theorem zip64ExtraFieldArm_data_start (f : ZipFileData) (d : List Nat) (p : Nat)
    (ll : Int) :
    (zip64ExtraFieldArm f d p ll).1.data_start = f.data_start := by
  unfold zip64ExtraFieldArm
  rw [zip64StepHeaderStart_data_start, zip64StepCompressed_data_start,
    zip64StepUncompressed_data_start]

/-- Closed form of the ZIP64 arm when the buffer holds enough bytes: each
widened value is read only for (and exactly for) saturated classic fields, in
the fixed order uncompressed, compressed, header start; the cursor advances
by exactly the widened bytes — the trailing disk-start field stays unread —
and the declared-length remainder is reduced by the same amount. -/
theorem zip64ExtraFieldArm_spec (f : ZipFileData) (d : List Nat) (p : Nat) (ll : Int)
    (h : p + 24 ≤ d.length) :
    zip64ExtraFieldArm f d p ll =
      ({ f with
          uncompressed_size :=
            if f.uncompressed_size = 0xFFFFFFFF then leVal d p 8 else f.uncompressed_size,
          compressed_size :=
            if f.compressed_size = 0xFFFFFFFF then
              leVal d (p + (if f.uncompressed_size = 0xFFFFFFFF then 8 else 0)) 8
            else f.compressed_size,
          header_start :=
            if f.header_start = 0xFFFFFFFF then
              leVal d (p + (if f.uncompressed_size = 0xFFFFFFFF then 8 else 0) +
                        (if f.compressed_size = 0xFFFFFFFF then 8 else 0)) 8
            else f.header_start },
       p + (if f.uncompressed_size = 0xFFFFFFFF then 8 else 0) +
           (if f.compressed_size = 0xFFFFFFFF then 8 else 0) +
           (if f.header_start = 0xFFFFFFFF then 8 else 0),
       ll - (if f.uncompressed_size = 0xFFFFFFFF then (8 : Int) else 0) -
            (if f.compressed_size = 0xFFFFFFFF then (8 : Int) else 0) -
            (if f.header_start = 0xFFFFFFFF then (8 : Int) else 0),
       none) := by
  have r1 : readLE d p 8 = .ok (leVal d p 8, p + 8) := readLE_eq_ok (by omega)
  have r2 : readLE d (p + 8) 8 = .ok (leVal d (p + 8) 8, p + 8 + 8) :=
    readLE_eq_ok (by omega)
  have r3 : readLE d (p + 8 + 8) 8 = .ok (leVal d (p + 8 + 8) 8, p + 8 + 8 + 8) :=
    readLE_eq_ok (by omega)
  by_cases hu : f.uncompressed_size = 0xFFFFFFFF <;>
    by_cases hc : f.compressed_size = 0xFFFFFFFF <;>
      by_cases hh : f.header_start = 0xFFFFFFFF <;>
        simp [zip64ExtraFieldArm, zip64StepUncompressed, zip64StepCompressed,
          zip64StepHeaderStart, hu, hc, hh, r1, r2, r3]

/-- C4.  For a ZIP64 extended-info extra record, an 8-byte widened value is
read exactly for each classic field equal to `0xFFFFFFFF`, in the fixed
order uncompressed size, compressed size, header start, each conditionally
consumed, and the cursor ends right after those widened values — the trailing
disk-start-number field is never parsed. -/
theorem claim_C4_zip64_widened_fields (f : ZipFileData) (d : List Nat) (p : Nat) (ll : Int)
    (h : p + 24 ≤ d.length) :
    zip64ExtraFieldArm f d p ll =
      ({ f with
          uncompressed_size :=
            if f.uncompressed_size = 0xFFFFFFFF then leVal d p 8 else f.uncompressed_size,
          compressed_size :=
            if f.compressed_size = 0xFFFFFFFF then
              leVal d (p + (if f.uncompressed_size = 0xFFFFFFFF then 8 else 0)) 8
            else f.compressed_size,
          header_start :=
            if f.header_start = 0xFFFFFFFF then
              leVal d (p + (if f.uncompressed_size = 0xFFFFFFFF then 8 else 0) +
                        (if f.compressed_size = 0xFFFFFFFF then 8 else 0)) 8
            else f.header_start },
       p + (if f.uncompressed_size = 0xFFFFFFFF then 8 else 0) +
           (if f.compressed_size = 0xFFFFFFFF then 8 else 0) +
           (if f.header_start = 0xFFFFFFFF then 8 else 0),
       ll - (if f.uncompressed_size = 0xFFFFFFFF then (8 : Int) else 0) -
            (if f.compressed_size = 0xFFFFFFFF then (8 : Int) else 0) -
            (if f.header_start = 0xFFFFFFFF then (8 : Int) else 0),
       none) :=
  zip64ExtraFieldArm_spec f d p ll h

/-- Witness for C4 at a concrete input: an entry with only the uncompressed
size saturated reads exactly one widened value, from the first 8 payload
bytes, and stops 8 bytes in. -/
theorem claim_C4_witness :
    zip64ExtraFieldArm fileSaturated dC4 0 5 =
      ({ fileSaturated with uncompressed_size := leVal dC4 0 8 }, 8, 5 - 8, none) := by
  have h := claim_C4_zip64_widened_fields fileSaturated dC4 0 5 (by decide)
  simpa [fileSaturated, dummyEntry] using h

theorem parseExtraLoop_error {d : List Nat} :
    ∀ (fuel : Nat) (f : ZipFileData) (p : Nat) (e : ZipError),
      (parseExtraLoop d f p fuel).2 = some e → e = .Io := by
  intro fuel
  induction fuel with
  | zero => intro f p e h; simp [parseExtraLoop] at h
  | succ n ih =>
    intro f p e h
    simp only [parseExtraLoop] at h
    split at h
    · split at h
      · rename_i e1 heq1
        simp at h
        exact h ▸ readLE_error heq1
      · rename_i kind p1 heq1
        split at h
        · rename_i e2 heq2
          simp at h
          exact h ▸ readLE_error heq2
        · rename_i len p2 heq2
          split at h
          · rename_i f3 q3 ll3 e3 heq3
            simp at h
            have he3 : e3 = ZipError.Io := by
              by_cases hk : kind = 0x0001
              · rw [if_pos hk] at heq3
                exact zip64ExtraFieldArm_error (by rw [heq3])
              · rw [if_neg hk] at heq3
                simp at heq3
            exact h ▸ he3
          · rename_i f3 p3 ll3 heq3
            exact ih _ _ _ h
    · simp at h

theorem parseExtraLoop_data_start {d : List Nat} :
    ∀ (fuel : Nat) (f : ZipFileData) (p : Nat),
      (parseExtraLoop d f p fuel).1.data_start = f.data_start := by
  intro fuel
  induction fuel with
  | zero => intro f p; simp [parseExtraLoop]
  | succ n ih =>
    intro f p
    simp only [parseExtraLoop]
    split
    · split
      · simp
      · rename_i kind p1 heq1
        split
        · simp
        · rename_i len p2 heq2
          split
          · rename_i f3 q3 ll3 e3 heq3
            have hf3 : f3.data_start = f.data_start := by
              by_cases hk : kind = 0x0001
              · rw [if_pos hk] at heq3
                have h0 := zip64ExtraFieldArm_data_start f d p2 (len : Int)
                rw [heq3] at h0
                exact h0
              · rw [if_neg hk] at heq3
                simp at heq3
            simpa using hf3
          · rename_i f3 p3 ll3 heq3
            have hf3 : f3.data_start = f.data_start := by
              by_cases hk : kind = 0x0001
              · rw [if_pos hk] at heq3
                have h0 := zip64ExtraFieldArm_data_start f d p2 (len : Int)
                rw [heq3] at h0
                exact h0
              · rw [if_neg hk] at heq3
                simp at heq3
                simp [← heq3.1]
            exact (ih f3 _).trans hf3
    · simp

theorem parse_extra_field_error {f : ZipFileData} {data : List Nat} {e : ZipError}
    (h : (parse_extra_field f data).2 = some e) : e = .Io :=
  parseExtraLoop_error _ _ _ _ h

theorem handleExtraField_eq (f : ZipFileData) (data : List Nat) :
    handleExtraField f data = .ok (parse_extra_field f data).1 := by
  unfold handleExtraField handleExtraFieldOutcome
  rcases hpe : parse_extra_field f data with ⟨r, err⟩
  cases err with
  | none => rfl
  | some e =>
    have he : e = .Io := parse_extra_field_error (by rw [hpe])
    subst he
    rfl

/-- C5.  A truncated or I/O-erroring extra-field record is tolerated
non-fatally — the `Ok(..) | Err(ZipError::Io(..))` arms fall through with the
entry (whose widened fields are simply those that could still be read) and
the entry is still produced — while any error other than `Io` takes the
aborting arm that fails the whole open; `read_zipfile_from_stream` routes its
extra field through the very same `handleExtraField`, so the same outcome
handling governs the streaming read. -/
theorem claim_C5_extra_field_tolerance :
    (∀ (f : ZipFileData) (data : List Nat) (r : ZipFileData),
        parse_extra_field f data = (r, some .Io) → handleExtraField f data = .ok r)
    ∧ (∀ (r : ZipFileData) (e : ZipError), e ≠ .Io →
        handleExtraFieldOutcome (r, some e) = .error e)
    ∧ (∀ (d : List Nat) (p archive_offset : Nat),
        p + 4 ≤ d.length →
        leVal d p 4 = CENTRAL_DIRECTORY_HEADER_SIGNATURE →
        p + 4 + 42 + leVal d (p + 4 + 24) 2 + leVal d (p + 4 + 26) 2 +
          leVal d (p + 4 + 28) 2 ≤ d.length →
        (central_header_to_zip_file d p archive_offset).isOk = true) := by
  refine ⟨?_, ?_, ?_⟩
  · intro f data r hpe
    have h := handleExtraField_eq f data
    rw [hpe] at h
    exact h
  · intro r e he
    unfold handleExtraFieldOutcome
    cases e with
    | Io => exact absurd rfl he
    | InvalidArchive s => rfl
    | UnsupportedArchive s => rfl
    | FileNotFound => rfl
  · intro d p archive_offset h4 hsig hbound
    have hn1 : readBytes d (p + 4 + 42) (leVal d (p + 4 + 24) 2) =
        .ok ((d.drop (p + 4 + 42)).take (leVal d (p + 4 + 24) 2),
             p + 4 + 42 + leVal d (p + 4 + 24) 2) := readBytes_eq_ok (by omega)
    have hn2 : readBytes d (p + 4 + 42 + leVal d (p + 4 + 24) 2)
        (leVal d (p + 4 + 26) 2) =
        .ok ((d.drop (p + 4 + 42 + leVal d (p + 4 + 24) 2)).take (leVal d (p + 4 + 26) 2),
             p + 4 + 42 + leVal d (p + 4 + 24) 2 + leVal d (p + 4 + 26) 2) :=
      readBytes_eq_ok (by omega)
    have hn3 : readBytes d (p + 4 + 42 + leVal d (p + 4 + 24) 2 + leVal d (p + 4 + 26) 2)
        (leVal d (p + 4 + 28) 2) =
        .ok ((d.drop (p + 4 + 42 + leVal d (p + 4 + 24) 2 +
               leVal d (p + 4 + 26) 2)).take (leVal d (p + 4 + 28) 2),
             p + 4 + 42 + leVal d (p + 4 + 24) 2 + leVal d (p + 4 + 26) 2 +
               leVal d (p + 4 + 28) 2) :=
      readBytes_eq_ok (by omega)
    simp only [central_header_to_zip_file, readLE_eq_ok h4, hsig, ne_eq,
      not_true_eq_false, if_false, ite_false,
      if_pos (show p + 4 + 42 ≤ d.length by omega), hn1, hn2, hn3,
      handleExtraField_eq]
    rfl

/-- Witness for C5 at concrete inputs: a truncated ZIP64 record yields an
`Io` failure that the handler swallows, a non-`Io` failure is re-raised, and
a minimal central-directory record still produces an entry. -/
theorem claim_C5_witness :
    handleExtraField fileSaturated dC5trunc = .ok fileSaturated
    ∧ handleExtraFieldOutcome (dummyEntry, some (.InvalidArchive "bad")) =
        .error (.InvalidArchive "bad")
    ∧ (central_header_to_zip_file dC5cd 0 0).isOk = true := by
  refine ⟨?_, ?_, ?_⟩
  · exact claim_C5_extra_field_tolerance.1 fileSaturated dC5trunc fileSaturated (by decide)
  · exact claim_C5_extra_field_tolerance.2.1 dummyEntry (.InvalidArchive "bad") (by decide)
  · exact claim_C5_extra_field_tolerance.2.2 dC5cd 0 0 (by decide) (by decide) (by decide)

/-- C10 (implicit).  When a ZIP64 extra record's declared 2-byte length is
smaller than the widened bytes its saturation conditions require, the parser
consumes the widened values past the record's declared end without reporting
an error, and the negative remaining length is silently ignored rather than
rewound: the loop proceeds to the next tag/length record at the position
right after the over-consumed bytes, strictly beyond the declared record
end, so every subsequent record is read from a misaligned position. -/
theorem claim_C10_declared_length_overrun (f : ZipFileData) (d : List Nat)
    (p fuel : Nat)
    (hp : p < d.length)
    (hkind : leVal d p 2 = 1)
    (hbytes : p + 4 + 24 ≤ d.length)
    (hover : leVal d (p + 2) 2 <
      (if f.uncompressed_size = 0xFFFFFFFF then 8 else 0) +
      (if f.compressed_size = 0xFFFFFFFF then 8 else 0) +
      (if f.header_start = 0xFFFFFFFF then 8 else 0)) :
    parseExtraLoop d f p (fuel + 1) =
      parseExtraLoop d
        { f with
          uncompressed_size :=
            if f.uncompressed_size = 0xFFFFFFFF then leVal d (p + 4) 8
            else f.uncompressed_size,
          compressed_size :=
            if f.compressed_size = 0xFFFFFFFF then
              leVal d (p + 4 + (if f.uncompressed_size = 0xFFFFFFFF then 8 else 0)) 8
            else f.compressed_size,
          header_start :=
            if f.header_start = 0xFFFFFFFF then
              leVal d (p + 4 + (if f.uncompressed_size = 0xFFFFFFFF then 8 else 0) +
                        (if f.compressed_size = 0xFFFFFFFF then 8 else 0)) 8
            else f.header_start }
        (p + 4 + (if f.uncompressed_size = 0xFFFFFFFF then 8 else 0) +
          (if f.compressed_size = 0xFFFFFFFF then 8 else 0) +
          (if f.header_start = 0xFFFFFFFF then 8 else 0)) fuel
    ∧ p + 4 + leVal d (p + 2) 2 <
        p + 4 + ((if f.uncompressed_size = 0xFFFFFFFF then 8 else 0) +
          (if f.compressed_size = 0xFFFFFFFF then 8 else 0) +
          (if f.header_start = 0xFFFFFFFF then 8 else 0)) := by
  have hb1 : p + 2 ≤ d.length := by omega
  have hb2 : readLE d (p + 2) 2 = .ok (leVal d (p + 2) 2, p + 4) := by
    rw [readLE_eq_ok (show p + 2 + 2 ≤ d.length by omega)]
  have harm := zip64ExtraFieldArm_spec f d (p + 4) ((leVal d (p + 2) 2 : Nat) : Int)
    (by omega)
  refine ⟨?_, ?_⟩
  · have hll : ¬ (0 : Int) <
        ((((leVal d (p + 2) 2 : Nat) : Int) -
            (if f.uncompressed_size = 0xFFFFFFFF then (8 : Int) else 0)) -
          (if f.compressed_size = 0xFFFFFFFF then (8 : Int) else 0)) -
        (if f.header_start = 0xFFFFFFFF then (8 : Int) else 0) := by
      by_cases hu : f.uncompressed_size = 0xFFFFFFFF <;>
        by_cases hc : f.compressed_size = 0xFFFFFFFF <;>
          by_cases hh : f.header_start = 0xFFFFFFFF <;>
            simp only [hu, hc, hh, eq_self_iff_true, if_true, if_false] at hover ⊢ <;>
              omega
    simp only [parseExtraLoop, if_pos hp, readLE_eq_ok hb1, hb2, hkind,
      eq_self_iff_true, if_true, harm, if_neg hll]
  · by_cases hu : f.uncompressed_size = 0xFFFFFFFF <;>
      by_cases hc : f.compressed_size = 0xFFFFFFFF <;>
        by_cases hh : f.header_start = 0xFFFFFFFF <;>
          simp only [hu, hc, hh, eq_self_iff_true, if_true, if_false] at hover ⊢ <;>
            omega

/-- Witness for C10 at a concrete input: a declared-length-0 ZIP64 record in
front of a saturated entry consumes 8 bytes past its end — the loop resumes
at position 12 instead of 4 — without any error. -/
theorem claim_C10_witness :
    parseExtraLoop dC10 fileSaturated 0 5 =
      parseExtraLoop dC10 { fileSaturated with uncompressed_size := leVal dC10 4 8 } 12 4
    ∧ 0 + 4 + leVal dC10 2 2 < 0 + 4 + 8 := by
  have h := claim_C10_declared_length_overrun fileSaturated dC10 0 4 (by decide)
    (by decide) (by decide) (by decide)
  refine ⟨?_, ?_⟩
  · have h1 := h.1
    simpa [fileSaturated, dummyEntry] using h1
  · have h2 := h.2
    simpa [fileSaturated, dummyEntry] using h2

/-! ### The streaming reader, the drop lifecycle, and the name lookup -/

theorem make_reader_error {m : CompressionMethod} {c l : Nat} {e : ZipError}
    (h : make_reader m c l = .error e) :
    e = .UnsupportedArchive "Compression method not supported" := by
  cases m <;> simp [make_reader] at h
  exact h.symm

/-- C7.  An entry whose encrypted flag is set fails as the unsupported-feature
error "Encrypted files are not supported" at open time, identically via
random access (`by_index`; `by_name` merely delegates to `by_index` after the
name lookup) and via the streaming reader, in each case before any
decompression pipeline is built. -/
theorem claim_C7_encrypted_unsupported :
    (∀ (ar : ZipArchive) (i : Nat) (hi : i < ar.files.length),
        (ar.files.get ⟨i, hi⟩).encrypted = true →
        by_index ar i = .error (.UnsupportedArchive "Encrypted files are not supported"))
    ∧ (∀ (ar : ZipArchive) (name : String) (idx : Nat),
        mapLookup ar.namesMap name = some idx → by_name ar name = by_index ar idx)
    ∧ (∀ (d : List Nat) (p : Nat),
        leVal d p 4 = LOCAL_FILE_HEADER_SIGNATURE →
        p + 30 + leVal d (p + 26) 2 + leVal d (p + 28) 2 ≤ d.length →
        leVal d (p + 6) 2 &&& 1 = 1 →
        read_zipfile_from_stream d p =
          .error (.UnsupportedArchive "Encrypted files are not supported")) := by
  refine ⟨?_, ?_, ?_⟩
  · intro ar i hi henc
    simp only [by_index]
    rw [dif_neg (show ¬ i ≥ ar.files.length by omega)]
    simp only [henc, if_true]
  · intro ar name idx h
    unfold by_name
    rw [h]
  · intro d p hsig hbound henc
    have hn1 : readBytes d (p + 30) (leVal d (p + 26) 2) =
        .ok ((d.drop (p + 30)).take (leVal d (p + 26) 2),
             p + 30 + leVal d (p + 26) 2) := readBytes_eq_ok (by omega)
    have hn2 : readBytes d (p + 30 + leVal d (p + 26) 2) (leVal d (p + 28) 2) =
        .ok ((d.drop (p + 30 + leVal d (p + 26) 2)).take (leVal d (p + 28) 2),
             p + 30 + leVal d (p + 26) 2 + leVal d (p + 28) 2) :=
      readBytes_eq_ok (by omega)
    simp only [read_zipfile_from_stream, readLE_eq_ok (show p + 4 ≤ d.length by omega),
      hsig, eq_self_iff_true, if_true, if_pos (show p + 4 + 26 ≤ d.length by omega)]
    rw [show p + 4 + 2 = p + 6 from by omega, show p + 4 + 22 = p + 26 from by omega,
      show p + 4 + 24 = p + 28 from by omega, show p + 4 + 26 = p + 30 from by omega]
    simp only [hn1, hn2, handleExtraField_eq]
    simp [henc]

/-- Witness for C7 at concrete inputs: an encrypted entry through `by_index`,
the `by_name` delegation on a concrete duplicate-name archive, and a
flags-bit-0 local header through the streaming reader. -/
theorem claim_C7_witness :
    by_index arC7 0 = .error (.UnsupportedArchive "Encrypted files are not supported")
    ∧ by_name arC9 "dup" = by_index arC9 1
    ∧ read_zipfile_from_stream dC7encrypted 0 =
        .error (.UnsupportedArchive "Encrypted files are not supported") := by
  refine ⟨?_, ?_, ?_⟩
  · exact claim_C7_encrypted_unsupported.1 arC7 0 (by decide) (by decide)
  · exact claim_C7_encrypted_unsupported.2.1 arC9 "dup" 1 (by decide)
  · exact claim_C7_encrypted_unsupported.2.2 dC7encrypted 0 (by decide) (by decide)
      (by decide)

/-- C6.  On reading the 4-byte signature at the current position the
streaming reader returns a successful `none` — not an error — when the
signature is the central-directory-record signature, and it rejects an entry
flagged as using a trailing data descriptor (flags bit 3) with the
unsupported-feature error "The file length is not available in the local
header" before any handle is built. -/
theorem claim_C6_stream_sentinel_and_descriptor :
    (∀ (d : List Nat) (p : Nat),
        p + 4 ≤ d.length →
        leVal d p 4 = CENTRAL_DIRECTORY_HEADER_SIGNATURE →
        read_zipfile_from_stream d p = .ok none)
    ∧ (∀ (d : List Nat) (p : Nat),
        leVal d p 4 = LOCAL_FILE_HEADER_SIGNATURE →
        p + 30 + leVal d (p + 26) 2 + leVal d (p + 28) 2 ≤ d.length →
        leVal d (p + 6) 2 &&& 8 ≠ 0 →
        leVal d (p + 6) 2 &&& 1 = 0 →
        read_zipfile_from_stream d p =
          .error (.UnsupportedArchive "The file length is not available in the local header")) := by
  constructor
  · intro d p h4 hsig
    simp [read_zipfile_from_stream, readLE_eq_ok h4, hsig,
      LOCAL_FILE_HEADER_SIGNATURE, CENTRAL_DIRECTORY_HEADER_SIGNATURE]
  · intro d p hsig hbound hdesc henc
    have hn1 : readBytes d (p + 30) (leVal d (p + 26) 2) =
        .ok ((d.drop (p + 30)).take (leVal d (p + 26) 2),
             p + 30 + leVal d (p + 26) 2) := readBytes_eq_ok (by omega)
    have hn2 : readBytes d (p + 30 + leVal d (p + 26) 2) (leVal d (p + 28) 2) =
        .ok ((d.drop (p + 30 + leVal d (p + 26) 2)).take (leVal d (p + 28) 2),
             p + 30 + leVal d (p + 26) 2 + leVal d (p + 28) 2) :=
      readBytes_eq_ok (by omega)
    simp only [read_zipfile_from_stream, readLE_eq_ok (show p + 4 ≤ d.length by omega),
      hsig, eq_self_iff_true, if_true, if_pos (show p + 4 + 26 ≤ d.length by omega)]
    rw [show p + 4 + 2 = p + 6 from by omega, show p + 4 + 22 = p + 26 from by omega,
      show p + 4 + 24 = p + 28 from by omega, show p + 4 + 26 = p + 30 from by omega,
      show (1 <<< 3 : Nat) = 8 from by decide]
    simp only [hn1, hn2, handleExtraField_eq]
    simp [henc, hdesc]

/-- Witness for C6 at concrete inputs: the bare central-directory signature
ends the stream successfully, and a data-descriptor-flagged local header is
rejected as unsupported. -/
theorem claim_C6_witness :
    read_zipfile_from_stream dC6central 0 = .ok none
    ∧ read_zipfile_from_stream dC6descriptor 0 =
        .error (.UnsupportedArchive "The file length is not available in the local header") := by
  constructor
  · exact claim_C6_stream_sentinel_and_descriptor.1 dC6central 0 (by decide) (by decide)
  · exact claim_C6_stream_sentinel_and_descriptor.2 dC6descriptor 0 (by decide) (by decide)
      (by decide) (by decide)

theorem drainLoop_spec (src : List Nat) :
    ∀ (fuel pos limit : Nat), limit < fuel →
      drainLoop src pos limit fuel =
        (pos + min limit (src.length - pos), limit - min limit (src.length - pos)) := by
  intro fuel
  induction fuel with
  | zero => intro pos limit h; exact absurd h (by omega)
  | succ n ih =>
    intro pos limit h
    simp only [drainLoop]
    by_cases hk : min 65536 (min limit (src.length - pos)) = 0
    · rw [if_pos hk]
      have h0 : min limit (src.length - pos) = 0 := by omega
      simp [h0]
    · rw [if_neg hk]
      rw [ih _ _ (by omega)]
      simp only [Prod.mk.injEq]
      constructor <;> omega

/-- C8.  On release, an owned (streaming) handle strips its decompression and
CRC layers and drains the raw, length-bounded take to exhaustion, leaving the
forward-only source positioned exactly at the first byte after the entry's
compressed data (`dataStart + compressed_size` when `consumed` raw bytes had
already been pulled through the pipeline); a borrowed (random-access) handle
performs no drain and leaves the source untouched. -/
theorem claim_C8_drop_drain (md : ZipFileData) (r : ZipFileReader) (s : StreamState)
    (dataStart consumed limit : Nat)
    (hr : innerTake r = some limit)
    (hcons : consumed ≤ md.compressed_size)
    (hlim : limit = md.compressed_size - consumed)
    (hpos : s.pos = dataStart + consumed)
    (hlen : dataStart + md.compressed_size ≤ s.src.length) :
    zipFileDrop { data := .owned md, reader := r } s =
      some { src := s.src, pos := dataStart + md.compressed_size }
    ∧ (∀ (md2 : ZipFileData) (r2 : ZipFileReader) (s2 : StreamState),
        zipFileDrop { data := .borrowed md2, reader := r2 } s2 = some s2) := by
  constructor
  · have hmin : min limit (s.src.length - s.pos) = limit := by omega
    have hfinal : s.pos + limit = dataStart + md.compressed_size := by omega
    simp only [zipFileDrop, hr, drainLoop_spec s.src (limit + 1) s.pos limit (by omega),
      hmin, hfinal]
  · intro md2 r2 s2
    rfl

/-- Witness for C8 at a concrete input: draining a fresh owned handle with a
4-byte budget moves the source from position 3 to position 7; a borrowed
handle leaves it at 3. -/
theorem claim_C8_witness :
    zipFileDrop { data := .owned mdC8, reader := .Stored 0 4 } sC8 =
      some { src := sC8.src, pos := 3 + mdC8.compressed_size }
    ∧ zipFileDrop { data := .borrowed mdC8, reader := .Stored 0 4 } sC8 = some sC8 := by
  have h := claim_C8_drop_drain mdC8 (.Stored 0 4) sC8 3 0 4 (by decide) (by decide)
    (by decide) (by decide) (by decide)
  exact ⟨h.1, h.2 mdC8 (.Stored 0 4) sC8⟩

theorem mapLookup_buildNamesMapGo :
    ∀ (files : List ZipFileData) (m : List (String × Nat)) (i0 : Nat) (name : String),
      mapLookup (buildNamesMapGo m i0 files) name =
        (match lastIndexOf name files with
         | some j => some (i0 + j)
         | none => mapLookup m name) := by
  intro files
  induction files with
  | nil => intro m i0 name; simp [buildNamesMapGo, lastIndexOf]
  | cons f rest ih =>
    intro m i0 name
    simp only [buildNamesMapGo, lastIndexOf]
    rw [ih]
    cases hrest : lastIndexOf name rest with
    | some j =>
      simp only [hrest, Option.some.injEq]
      omega
    | none =>
      simp only [hrest]
      by_cases hname : f.file_name = name
      · simp [mapInsert, mapLookup, hname]
      · simp [mapInsert, mapLookup, hname]

theorem mapLookup_buildNamesMap (files : List ZipFileData) (name : String) :
    mapLookup (buildNamesMap files) name = lastIndexOf name files := by
  unfold buildNamesMap
  rw [mapLookup_buildNamesMapGo]
  cases h : lastIndexOf name files with
  | some j => simp
  | none => simp [mapLookup]

theorem by_index_FileNotFound_iff (ar : ZipArchive) (i : Nat) :
    by_index ar i = .error .FileNotFound ↔ ar.files.length ≤ i := by
  constructor
  · intro h
    by_contra hlt
    simp only [by_index] at h
    rw [dif_neg (show ¬ i ≥ ar.files.length by omega)] at h
    split at h
    · simp at h
    · split at h
      · rename_i e1 he1
        simp at h
        exact ZipError.noConfusion (h ▸ readLE_error he1)
      · split at h
        · simp at h
        · split at h
          · rename_i e2 he2
            simp at h
            exact ZipError.noConfusion (h ▸ readLE_error he2)
          · split at h
            · rename_i e3 he3
              simp at h
              exact ZipError.noConfusion (h ▸ readLE_error he3)
            · split at h
              · rename_i e4 he4
                simp at h
                exact ZipError.noConfusion (h ▸ make_reader_error he4)
              · simp at h
  · intro h
    simp only [by_index]
    rw [dif_pos (show i ≥ ar.files.length by omega)]

/-- C9.  When the directory contains several entries with the same name, the
name lookup resolves to the index of the last occurrence in directory order
(`names_map` is built by inserting each entry under its position, later
insertions shadowing earlier ones, which is how `ZipArchive.new` constructs
it); `by_name` delegates to `by_index` at the looked-up index; and every
earlier duplicate stays individually accessible through `by_index`, which
reports `FileNotFound` exactly for out-of-range indices. -/
theorem claim_C9_duplicate_names (ar : ZipArchive) (name : String)
    (hm : ar.namesMap = buildNamesMap ar.files) :
    mapLookup ar.namesMap name = lastIndexOf name ar.files
    ∧ (∀ idx, mapLookup ar.namesMap name = some idx → by_name ar name = by_index ar idx)
    ∧ (∀ i, by_index ar i = .error .FileNotFound ↔ ar.files.length ≤ i) := by
  refine ⟨by rw [hm]; exact mapLookup_buildNamesMap _ _, ?_, ?_⟩
  · intro idx h
    unfold by_name
    rw [h]
  · intro i
    exact by_index_FileNotFound_iff ar i

/-- Witness for C9 at a concrete archive with two entries named "dup": the
lookup resolves to index 1 (the last occurrence), `by_name` equals
`by_index` at 1, and index 0 — the earlier duplicate — is not
`FileNotFound`. -/
theorem claim_C9_witness :
    mapLookup arC9.namesMap "dup" = lastIndexOf "dup" arC9.files
    ∧ by_name arC9 "dup" = by_index arC9 1
    ∧ (by_index arC9 0 = .error .FileNotFound ↔ arC9.files.length ≤ 0) := by
  have h := claim_C9_duplicate_names arC9 "dup" rfl
  exact ⟨h.1, h.2.1 1 (by decide), h.2.2 0⟩

/-! ### Random access: the data_start computation and its idempotent caching -/

theorem readLE_ok_inv {d : List Nat} {p n v q : Nat}
    (h : readLE d p n = .ok (v, q)) :
    v = leVal d p n ∧ q = p + n ∧ p + n ≤ d.length := by
  by_cases hb : p + n ≤ d.length <;> simp [readLE, hb] at h
  exact ⟨h.1.symm, h.2.symm, hb⟩

theorem parse_extra_field_data_start (f : ZipFileData) (data : List Nat) :
    (parse_extra_field f data).1.data_start = f.data_start :=
  parseExtraLoop_data_start _ _ _

theorem central_header_data_start_zero {dd : List Nat} {pp off : Nat}
    {r : ZipFileData} {pp' : Nat}
    (h : central_header_to_zip_file dd pp off = .ok (r, pp')) : r.data_start = 0 := by
  unfold central_header_to_zip_file at h
  split at h
  · simp at h
  · split at h
    · simp at h
    · split at h
      · dsimp only at h
        split at h
        · simp at h
        · rename_i fnr p1 hb1
          split at h
          · simp at h
          · rename_i ef p2 hb2
            split at h
            · simp at h
            · rename_i fcr p3 hb3
              split at h
              · simp at h
              · rename_i result2 hhe
                simp only [Except.ok.injEq, Prod.mk.injEq] at h
                obtain ⟨hr, hpq⟩ := h
                subst hr
                rw [handleExtraField_eq] at hhe
                simp only [Except.ok.injEq] at hhe
                simp only [← hhe]
                rw [parse_extra_field_data_start]
      · simp at h

/-- C2.  For an entry opened by index (by name is the same code path after
the lookup), `data_start` is computed as `header_start + 30 +
local_name_length + local_extra_length` — the two length fields read at 26
and 28 bytes past the local header's start — and cached into the archive's
entry; the update touches only that one field of that one entry, every other
component of the archive is unchanged, and repeating the access returns the
identical archive and handle (the mutation is idempotent, so the field
changes at most once); at construction time `central_header_to_zip_file`
leaves `data_start` at 0, which is what makes the resolution lazy. -/
theorem claim_C2_data_start_cached (ar : ZipArchive) (i : Nat) (ar2 : ZipArchive)
    (zf : ZipFile) (hi : i < ar.files.length)
    (h : by_index ar i = .ok (ar2, zf)) :
    ar2.files = ar.files.set i
      { ar.files.get ⟨i, hi⟩ with
          data_start :=
            (ar.files.get ⟨i, hi⟩).header_start + 30 +
              leVal ar.reader ((ar.files.get ⟨i, hi⟩).header_start + 26) 2 +
              leVal ar.reader ((ar.files.get ⟨i, hi⟩).header_start + 28) 2 }
    ∧ ar2.reader = ar.reader ∧ ar2.namesMap = ar.namesMap ∧ ar2.offset = ar.offset
    ∧ ar2.comment = ar.comment
    ∧ by_index ar2 i = .ok (ar2, zf)
    ∧ (∀ (dd : List Nat) (pp off : Nat) (r : ZipFileData) (pp' : Nat),
        central_header_to_zip_file dd pp off = .ok (r, pp') → r.data_start = 0) := by
  simp only [by_index] at h
  rw [dif_neg (show ¬ i ≥ ar.files.length by omega)] at h
  split at h
  · simp at h
  · rename_i henc
    split at h
    · simp at h
    · rename_i sig rest hsg
      split at h
      · simp at h
      · rename_i hsigok
        split at h
        · simp at h
        · rename_i fnl r1 hfnl
          split at h
          · simp at h
          · rename_i efl r2 hefl
            split at h
            · simp at h
            · rename_i rd hmk
              simp only [Except.ok.injEq, Prod.mk.injEq] at h
              obtain ⟨har, hzf⟩ := h
              subst har
              subst hzf
              obtain ⟨hfnlv, hfnlq, hfnlb⟩ := readLE_ok_inv hfnl
              obtain ⟨heflv, heflq, heflb⟩ := readLE_ok_inv hefl
              subst hfnlv
              subst heflv
              refine ⟨rfl, rfl, rfl, rfl, rfl, ?_,
                fun dd pp off r pp' hc => central_header_data_start_zero hc⟩
              have hge : (i ≥ ar.files.length) = False := eq_false (by omega)
              simp only [List.get_eq_getElem] at henc hsg hfnl hefl hmk
              simp only [by_index, List.length_set, hge, dite_false,
                List.get_eq_getElem, List.getElem_set_self, henc, hsg, hsigok,
                hfnl, hefl, hmk, List.set_set, if_false, ite_false,
                eq_self_iff_true, if_true, not_false_iff]
              simp

/-- Witness for C2 at a concrete archive: the single entry's `data_start`
resolves to `0 + 30 + 1 + 0 = 31` on first access, and a second access
returns the identical archive and handle. -/
theorem claim_C2_witness :
    by_index arC2 0 = .ok (arC2resolved, zfC2)
    ∧ by_index arC2resolved 0 = .ok (arC2resolved, zfC2) := by
  have hb : by_index arC2 0 = .ok (arC2resolved, zfC2) := by rfl
  exact ⟨hb,
    (claim_C2_data_start_cached arC2 0 arC2resolved zfC2 (by decide) hb).2.2.2.2.2.1⟩

end ZipRs
